import Mathlib

/-!
# Verification of the blogicum request-handling layer

Shallow embedding of `blog/views.py` and `blog/mixins.py` from the
`django_sprint4` repository.  The database visible to the views (posts,
comments, categories, users) is modelled as explicit state; each Django view
becomes a Lean function from the request data and the state to a response, a
new state, and a trace of the database/cache/authorization events the handler
performs.  Time (`timezone.now()`) is an explicit `Int` parameter.
-/

namespace Blogicum

/-- A blog category (`blog.models.Category`): only the fields the views read. -/
structure Category where
  id : Nat
  slug : String
  is_published : Bool
  deriving Repr, DecidableEq

/-- A blog post (`blog.models.Post`): the fields the views read or write.
`author` and `category` are foreign keys stored as ids; `text` stands for the
remaining editable content fields. -/
structure Post where
  id : Nat
  author : Nat
  category : Nat
  pub_date : Int
  is_published : Bool
  text : String
  deriving Repr, DecidableEq

/-- A comment (`blog.models.Comment`): `author` and `post` are ids. -/
structure Comment where
  id : Nat
  author : Nat
  post : Nat
  text : String
  deriving Repr, DecidableEq

/-- A user (`django.contrib.auth` user): only id and username are used. -/
structure User where
  id : Nat
  username : String
  deriving Repr, DecidableEq

/-- The database state the views operate on, plus the framework cache
(`django.core.cache.cache`), modelled as an opaque list of entries that
`cache.clear()` empties. -/
structure DB where
  posts : List Post
  comments : List Comment
  categories : List Category
  users : List User
  cache : List Nat
  deriving Repr, DecidableEq

/-- `get_object_or_404(Post, pk=pid)` / `Post.objects.get(pk=pid)`. -/
def findPost (db : DB) (pid : Nat) : Option Post :=
  db.posts.find? (fun p => p.id == pid)

/-- `get_object_or_404(Comment, pk=cid)`. -/
def findComment (db : DB) (cid : Nat) : Option Comment :=
  db.comments.find? (fun c => c.id == cid)

/-- `get_object_or_404(User, username=u)`. -/
def findUserByUsername (db : DB) (u : String) : Option User :=
  db.users.find? (fun x => x.username == u)

/-- Resolution of the `category` foreign key followed by its
`is_published` flag (used both by the `category__is_published=True` filter and
by `post.category.is_published` in `PostDetailView.get_object`).  A dangling
foreign key counts as unpublished. -/
def category_is_published (db : DB) (cid : Nat) : Bool :=
  match db.categories.find? (fun c => c.id == cid) with
  | some c => c.is_published
  | none => false

/-- The `Count('comments')` annotation value for one post. -/
def comment_count_of (db : DB) (p : Post) : Nat :=
  (db.comments.filter (fun c => c.post == p.id)).length

/-- The publication filter of `create_queryset`:
`pub_date__lt=timezone.now(), is_published=True, category__is_published=True`. -/
def passes_filters (db : DB) (now : Int) (p : Post) : Bool :=
  decide (p.pub_date < now) && p.is_published && category_is_published db p.category

/-- A queryset row after the optional `comment_count` annotation. -/
structure AnnPost where
  post : Post
  comment_count : Option Nat
  deriving Repr, DecidableEq

/-- Insertion into a descending-`pub_date` sorted list (the effect of
`order_by('-pub_date')` on one element). -/
def insertDesc (p : Post) : List Post → List Post
  | [] => [p]
  | q :: qs => if q.pub_date ≤ p.pub_date then p :: q :: qs else q :: insertDesc p qs

/-- `order_by('-pub_date')`: sort rows by descending publication date. -/
def sortDesc : List Post → List Post
  | [] => []
  | p :: ps => insertDesc p (sortDesc ps)

/-- `create_queryset(manager, filters, annotations)` from `blog/views.py`:
`select_related` does not change the rows; `filters` conditionally applies the
publication filter; `annotations` conditionally adds `comment_count` and
orders by `-pub_date`.  `manager` is the row set of the manager argument. -/
def create_queryset (db : DB) (now : Int) (manager : List Post)
    (filters : Bool) (annotations : Bool) : List AnnPost :=
  let qs := manager
  let qs := if filters then qs.filter (passes_filters db now) else qs
  if annotations then
    (sortDesc qs).map (fun p => ⟨p, some (comment_count_of db p)⟩)
  else
    qs.map (fun p => ⟨p, none⟩)

/-- Rows of an annotated queryset, forgetting the annotations. -/
def rowPosts (l : List AnnPost) : List Post := l.map AnnPost.post

/-- Descending order on `pub_date`, as produced by `order_by('-pub_date')`. -/
def PubDateSortedDesc (l : List Post) : Prop :=
  List.Pairwise (fun a b => b.pub_date ≤ a.pub_date) l

/-- Example fixture: a published and an unpublished category. -/
def gencat : Category := ⟨1, "general", true⟩

/-- Example fixture: an unpublished category. -/
def hidcat : Category := ⟨2, "hidden", false⟩

/-- Example fixture: user alice (id 1). -/
def alice : User := ⟨1, "alice"⟩

/-- Example fixture: user bob (id 2). -/
def bob : User := ⟨2, "bob"⟩

/-- Example fixture: a published past-dated post by alice. -/
def p1 : Post := ⟨1, 1, 1, 50, true, "hello"⟩

/-- Example fixture: a post by alice in the unpublished category. -/
def p2 : Post := ⟨2, 1, 2, 60, true, "draft"⟩

/-- Example fixture: a future-dated post by bob. -/
def p3 : Post := ⟨3, 2, 1, 200, true, "future"⟩

/-- Example fixture: bob's comment on post 1. -/
def c1 : Comment := ⟨1, 2, 1, "nice"⟩

/-- Example database used by the concrete witnesses. -/
def exDB : DB :=
  { posts := [p1, p2, p3]
  , comments := [c1]
  , categories := [gencat, hidcat]
  , users := [alice, bob]
  , cache := [7] }

theorem mem_insertDesc (p x : Post) (l : List Post) :
    x ∈ insertDesc p l ↔ x = p ∨ x ∈ l := by
  induction l with
  | nil => simp [insertDesc]
  | cons q qs ih =>
    by_cases h : q.pub_date ≤ p.pub_date
    · simp [insertDesc, h]
    · simp [insertDesc, h, ih]
      tauto

theorem mem_sortDesc (x : Post) (l : List Post) :
    x ∈ sortDesc l ↔ x ∈ l := by
  induction l with
  | nil => simp [sortDesc]
  | cons p ps ih => simp [sortDesc, mem_insertDesc, ih]

theorem sorted_insertDesc (p : Post) (l : List Post)
    (h : PubDateSortedDesc l) : PubDateSortedDesc (insertDesc p l) := by
  induction l with
  | nil => simp [insertDesc, PubDateSortedDesc]
  | cons q qs ih =>
    rw [PubDateSortedDesc, List.pairwise_cons] at h
    by_cases hle : q.pub_date ≤ p.pub_date
    · rw [PubDateSortedDesc, insertDesc]
      simp only [hle, if_true]
      refine List.Pairwise.cons ?_ (List.Pairwise.cons h.1 h.2)
      intro x hx
      rcases List.mem_cons.mp hx with hx | hx
      · subst hx; exact hle
      · exact le_trans (h.1 x hx) hle
    · rw [PubDateSortedDesc, insertDesc]
      simp only [hle, if_false]
      refine List.Pairwise.cons ?_ (ih h.2)
      intro x hx
      rcases (mem_insertDesc p x qs).mp hx with hx | hx
      · subst hx; exact le_of_lt (lt_of_not_le hle)
      · exact h.1 x hx

theorem sorted_sortDesc (l : List Post) : PubDateSortedDesc (sortDesc l) := by
  induction l with
  | nil => simp [sortDesc, PubDateSortedDesc]
  | cons p ps ih => exact sorted_insertDesc p (sortDesc ps) ih

/-- The database/cache/authorization events a handler performs, in order:
`queryset` is a queryset construction or object fetch, `authCheck` an
authentication or ownership check, `dbWrite` a save or delete,
`cacheClear` a `cache.clear()` call. -/
inductive Event where
  | queryset
  | authCheck
  | dbWrite
  | cacheClear
  deriving Repr, DecidableEq

/-- Named URL patterns the views redirect to. -/
inductive Route where
  | post_detail (post_id : Nat)
  | index
  | profile (username : String)
  | login
  deriving Repr, DecidableEq

/-- The HTTP response a handler returns. -/
inductive Response where
  | listing (rows : List AnnPost)
  | detailPage (p : Post)
  | render (template : String)
  | redirect (r : Route)
  | forbidden
  | notFound
  deriving Repr, DecidableEq

/-- Result of handling one request: the response, the database state after the
request, and the trace of events the handler performed. -/
structure HResult where
  resp : Response
  db : DB
  events : List Event
  deriving Repr, DecidableEq

/-- A bound `PostEditForm`: validity plus the editable field values. -/
structure PostForm where
  valid : Bool
  category : Nat
  pub_date : Int
  is_published : Bool
  text : String
  deriving Repr, DecidableEq

/-- A bound `CommentEditForm`. -/
structure CommentForm where
  valid : Bool
  text : String
  deriving Repr, DecidableEq

/-- A bound `UserEditForm`. -/
structure UserForm where
  valid : Bool
  username : String
  deriving Repr, DecidableEq

/-- Fresh primary key for a created post. -/
def nextPostId (db : DB) : Nat := (db.posts.map Post.id).foldr max 0 + 1

/-- Fresh primary key for a created comment. -/
def nextCommentId (db : DB) : Nat := (db.comments.map Comment.id).foldr max 0 + 1

/-- Fresh primary key for a created user. -/
def nextUserId (db : DB) : Nat := (db.users.map User.id).foldr max 0 + 1

/-- Saving a valid `PostEditForm` over an existing post: the editable fields
are replaced, the primary key and the author are untouched. -/
def applyPostForm (form : PostForm) (p : Post) : Post :=
  { p with category := form.category, pub_date := form.pub_date,
           is_published := form.is_published, text := form.text }

/-- `form.save()` in `PostUpdateView`: update the post with primary key `pid`. -/
def updatePost (db : DB) (pid : Nat) (form : PostForm) : DB :=
  { db with posts := db.posts.map (fun p => if p.id == pid then applyPostForm form p else p) }

/-- `form.save()` in `CommentUpdateView`. -/
def updateComment (db : DB) (cid : Nat) (form : CommentForm) : DB :=
  { db with comments :=
      db.comments.map (fun c => if c.id == cid then { c with text := form.text } else c) }

/-- `form.save()` in `ProfileUpdateView` on `request.user`. -/
def updateUser (db : DB) (uid : Nat) (form : UserForm) : DB :=
  { db with users :=
      db.users.map (fun u => if u.id == uid then { u with username := form.username } else u) }

/-- `self.request.user.username` in `ProfileSuccessUrlMixin.get_success_url`. -/
def usernameOf (db : DB) (uid : Nat) : String :=
  match db.users.find? (fun u => u.id == uid) with
  | some u => u.username
  | none => ""

/-- `IndexListView` (GET): `queryset = create_queryset()` with the default
manager and both flags true. -/
def indexListView (db : DB) (now : Int) : HResult :=
  { resp := .listing (create_queryset db now db.posts true true)
  , db := db
  , events := [.queryset] }

/-- `CategoryListView.get_queryset` (GET): `get_object_or_404(Category,
slug=..., is_published=True)`, then `create_queryset(manager=category.posts)`. -/
def categoryListView (db : DB) (now : Int) (slug : String) : HResult :=
  match db.categories.find? (fun c => c.slug == slug && c.is_published) with
  | none => { resp := .notFound, db := db, events := [.queryset] }
  | some cat =>
      { resp := .listing (create_queryset db now
          (db.posts.filter (fun p => p.category == cat.id)) true true)
      , db := db
      , events := [.queryset, .queryset] }

/-- `ProfileListView.get_queryset` (GET): `get_object_or_404(User,
username=...)`; the profile owner gets `filters=False`, everybody else
`filters=True`.  `user` is `request.user` (`none` = anonymous). -/
def profileListView (db : DB) (now : Int) (user : Option Nat) (username : String) : HResult :=
  match findUserByUsername db username with
  | none => { resp := .notFound, db := db, events := [.queryset] }
  | some author =>
      let own : Bool := user == some author.id
      { resp := .listing (create_queryset db now
          (db.posts.filter (fun p => p.author == author.id)) (!own) true)
      , db := db
      , events := [.queryset, .authCheck, .queryset] }

/-- `add_comment` (POST): `@login_required`; `get_object_or_404(Post,
pk=post_id)`; a valid form is saved with `author = request.user` and
`post` the fetched post; in all remaining cases redirect to the post's
detail page. -/
def add_comment (db : DB) (user : Option Nat) (post_id : Nat) (form : CommentForm) : HResult :=
  match user with
  | none => { resp := .redirect .login, db := db, events := [.authCheck] }
  | some u =>
    match findPost db post_id with
    | none => { resp := .notFound, db := db, events := [.authCheck, .queryset] }
    | some post =>
      if form.valid then
        { resp := .redirect (.post_detail post_id)
        , db := { db with comments :=
            db.comments ++ [⟨nextCommentId db, u, post.id, form.text⟩] }
        , events := [.authCheck, .queryset, .dbWrite] }
      else
        { resp := .redirect (.post_detail post_id)
        , db := db
        , events := [.authCheck, .queryset] }

/-- `PostCreateView` (POST): `LoginRequiredMixin`; a valid form is saved with
`form.instance.author = request.user`, then redirect to the requester's
profile (`ProfileSuccessUrlMixin`); an invalid form re-renders the template. -/
def postCreateView (db : DB) (user : Option Nat) (form : PostForm) : HResult :=
  match user with
  | none => { resp := .redirect .login, db := db, events := [.authCheck] }
  | some u =>
    if form.valid then
      { resp := .redirect (.profile (usernameOf db u))
      , db := { db with posts := db.posts ++
          [⟨nextPostId db, u, form.category, form.pub_date, form.is_published, form.text⟩] }
      , events := [.authCheck, .dbWrite] }
    else
      { resp := .render "blog/create.html", db := db, events := [.authCheck] }

/-- The `Http404` test in `PostDetailView.get_object`: raised when the
requester is not the author and the post is unpublished, its category is
unpublished, or its `pub_date` is in the future. -/
def detail_404_condition (db : DB) (now : Int) (user : Option Nat) (post : Post) : Bool :=
  (some post.author != user)
    && (!post.is_published || !category_is_published db post.category
        || decide (now < post.pub_date))

/-- `PostDetailView` (GET): default `get_object` by `post_id`, the extra
author/publication test, and the comments queryset built in
`get_context_data`. -/
def postDetailView (db : DB) (now : Int) (user : Option Nat) (post_id : Nat) : HResult :=
  match findPost db post_id with
  | none => { resp := .notFound, db := db, events := [.queryset] }
  | some post =>
    if detail_404_condition db now user post then
      { resp := .notFound, db := db, events := [.queryset, .authCheck] }
    else
      { resp := .detailPage post, db := db, events := [.queryset, .authCheck, .queryset] }

/-- `ProfileUpdateView` (POST): `LoginRequiredMixin`; `get_object` returns
`request.user` (no queryset); a valid form is saved and redirects to the
profile, an invalid one re-renders. -/
def profileUpdateView (db : DB) (user : Option Nat) (form : UserForm) : HResult :=
  match user with
  | none => { resp := .redirect .login, db := db, events := [.authCheck] }
  | some u =>
    if form.valid then
      { resp := .redirect (.profile form.username)
      , db := updateUser db u form
      , events := [.authCheck, .dbWrite] }
    else
      { resp := .render "blog/user.html", db := db, events := [.authCheck] }

/-- `PostUpdateView` (POST): `CommonPostMixin.dispatch` fetches the post and
redirects a non-author to the post's detail page before any handler runs;
for the author, `LoginRequiredMixin` passes and `UpdateView` fetches the
object again and saves a valid form. -/
def postUpdateView (db : DB) (user : Option Nat) (post_id : Nat) (form : PostForm) : HResult :=
  match findPost db post_id with
  | none => { resp := .notFound, db := db, events := [.queryset] }
  | some post =>
    if some post.author != user then
      { resp := .redirect (.post_detail post.id), db := db
      , events := [.queryset, .authCheck] }
    else
      if form.valid then
        { resp := .redirect (.post_detail post.id)
        , db := updatePost db post_id form
        , events := [.queryset, .authCheck, .authCheck, .queryset, .dbWrite] }
      else
        { resp := .render "blog/create.html", db := db
        , events := [.queryset, .authCheck, .authCheck, .queryset] }

/-- `PostDeleteView` (POST): `dispatch` fetches the post and returns
`HttpResponseForbidden` to a non-author; for the author, `delete` refetches
the post, deletes its comments, clears the cache, then deletes the post and
redirects to `blog:index`. -/
def postDeleteView (db : DB) (user : Option Nat) (post_id : Nat) : HResult :=
  match findPost db post_id with
  | none => { resp := .notFound, db := db, events := [.queryset] }
  | some post =>
    if some post.author != user then
      { resp := .forbidden, db := db, events := [.queryset, .authCheck] }
    else
      { resp := .redirect .index
      , db := { db with
          posts := db.posts.filter (fun p => p.id != post.id)
          comments := db.comments.filter (fun c => c.post != post.id)
          cache := [] }
      , events := [.queryset, .authCheck, .authCheck, .queryset, .queryset,
                   .dbWrite, .cacheClear, .dbWrite] }

/-- `CommentUpdateView` (POST): `CommentMixin.dispatch` fetches the comment
and redirects a non-author to the comment's post's detail page; for the
author, `UpdateView` refetches the comment and saves a valid form, then
redirects to `post_detail` with the `post_id` URL kwarg. -/
def commentUpdateView (db : DB) (user : Option Nat) (post_id comment_id : Nat)
    (form : CommentForm) : HResult :=
  match findComment db comment_id with
  | none => { resp := .notFound, db := db, events := [.queryset] }
  | some comment =>
    if some comment.author != user then
      { resp := .redirect (.post_detail comment.post), db := db
      , events := [.queryset, .authCheck] }
    else
      if form.valid then
        { resp := .redirect (.post_detail post_id)
        , db := updateComment db comment_id form
        , events := [.queryset, .authCheck, .authCheck, .queryset, .dbWrite] }
      else
        { resp := .render "blog/comment.html", db := db
        , events := [.queryset, .authCheck, .authCheck, .queryset] }

/-- `CommentDeleteView` (POST): `dispatch` fetches the comment and returns
`HttpResponseForbidden` to a non-author; for the author, `delete` refetches
the comment, deletes it and redirects to `post_detail` with the `post_id`
URL kwarg. -/
def commentDeleteView (db : DB) (user : Option Nat) (post_id comment_id : Nat) : HResult :=
  match findComment db comment_id with
  | none => { resp := .notFound, db := db, events := [.queryset] }
  | some comment =>
    if some comment.author != user then
      { resp := .forbidden, db := db, events := [.queryset, .authCheck] }
    else
      { resp := .redirect (.post_detail post_id)
      , db := { db with comments := db.comments.filter (fun c => c.id != comment.id) }
      , events := [.queryset, .authCheck, .authCheck, .queryset, .dbWrite] }

/-- `ProfileCreateView` (POST, registration): no authentication; a valid form
creates a user and redirects to `login`, an invalid one re-renders. -/
def profileCreateView (db : DB) (form : UserForm) : HResult :=
  if form.valid then
    { resp := .redirect .login
    , db := { db with users := db.users ++ [⟨nextUserId db, form.username⟩] }
    , events := [.dbWrite] }
  else
    { resp := .render "registration/registration_form.html", db := db, events := [] }

/-- Rows carried by a listing response (empty for non-listing responses). -/
def listingRows : Response → List AnnPost
  | .listing rows => rows
  | _ => []

/-- `true` when no database write happens before the first authorization
check in an event trace: the handler authorizes, then writes. -/
def authBeforeWrite : List Event → Bool
  | [] => true
  | Event.dbWrite :: _ => false
  | Event.authCheck :: _ => true
  | _ :: es => authBeforeWrite es

/-- Example bound post form. -/
def exPostForm : PostForm := ⟨true, 1, 80, true, "edited"⟩

/-- Example bound comment form. -/
def exCommentForm : CommentForm := ⟨true, "reply"⟩

/-- Replacing the cache component of the state. -/
def withCache (db : DB) (c : List Nat) : DB := { db with cache := c }

/-- A handler neither reads nor writes the cache: on any state, changing the
incoming cache changes nothing about the response, the rest of the state or
the events, and the cache passes through unchanged. -/
def cacheOblivious (h : DB → HResult) : Prop :=
  ∀ db c, h (withCache db c) =
    { resp := (h db).resp, db := withCache (h db).db c, events := (h db).events }

theorem mem_rowPosts_create_queryset (db : DB) (now : Int) (manager : List Post)
    (f a : Bool) (p : Post) :
    p ∈ rowPosts (create_queryset db now manager f a) ↔
      p ∈ manager ∧ (f = true → passes_filters db now p = true) := by
  unfold create_queryset rowPosts
  cases f <;> cases a <;>
    simp [mem_sortDesc, List.mem_filter, AnnPost.mk.injEq]


theorem findPost_id (db : DB) (pid : Nat) (p : Post)
    (h : findPost db pid = some p) : p.id = pid := by
  have := List.find?_some h
  simpa using this

theorem findComment_id (db : DB) (cid : Nat) (c : Comment)
    (h : findComment db cid = some c) : c.id = cid := by
  have := List.find?_some h
  simpa using this

theorem rowPosts_map (l : List Post) (g : Post → Option Nat) :
    rowPosts (l.map (fun p => ⟨p, g p⟩)) = l := by
  induction l with
  | nil => rfl
  | cons p ps ih =>
    simp only [rowPosts, List.map_cons] at ih ⊢
    rw [ih]

/-- C1: for each of `PostUpdateView`, `PostDeleteView`, `CommentUpdateView`
and `CommentDeleteView`, when the requester is not the target object's
author the dispatch check refuses the request and the database is left
unchanged, so the operation modifies the object only when the requester is
its author. -/
theorem owner_check_guards_mutations
    (db : DB) (user : Option Nat) (post_id comment_id : Nat)
    (pform : PostForm) (cform : CommentForm) :
    (∀ post, findPost db post_id = some post → some post.author ≠ user →
      (postUpdateView db user post_id pform).db = db ∧
      (postUpdateView db user post_id pform).resp = .redirect (.post_detail post.id)) ∧
    (∀ post, findPost db post_id = some post → some post.author ≠ user →
      (postDeleteView db user post_id).db = db ∧
      (postDeleteView db user post_id).resp = .forbidden) ∧
    (∀ comment, findComment db comment_id = some comment → some comment.author ≠ user →
      (commentUpdateView db user post_id comment_id cform).db = db ∧
      (commentUpdateView db user post_id comment_id cform).resp =
        .redirect (.post_detail comment.post)) ∧
    (∀ comment, findComment db comment_id = some comment → some comment.author ≠ user →
      (commentDeleteView db user post_id comment_id).db = db ∧
      (commentDeleteView db user post_id comment_id).resp = .forbidden) := by
  refine ⟨?_, ?_, ?_, ?_⟩
  · intro post hfind hne
    simp [postUpdateView, hfind, hne]
  · intro post hfind hne
    simp [postDeleteView, hfind, hne]
  · intro comment hfind hne
    simp [commentUpdateView, hfind, hne]
  · intro comment hfind hne
    simp [commentDeleteView, hfind, hne]

theorem owner_check_guards_mutations_witness :
    ((postUpdateView exDB (some 2) 1 exPostForm).db = exDB ∧
      (postUpdateView exDB (some 2) 1 exPostForm).resp = .redirect (.post_detail 1)) ∧
    ((postDeleteView exDB (some 2) 1).db = exDB ∧
      (postDeleteView exDB (some 2) 1).resp = .forbidden) ∧
    ((commentUpdateView exDB (some 1) 1 1 exCommentForm).db = exDB ∧
      (commentUpdateView exDB (some 1) 1 1 exCommentForm).resp =
        .redirect (.post_detail 1)) ∧
    ((commentDeleteView exDB (some 1) 1 1).db = exDB ∧
      (commentDeleteView exDB (some 1) 1 1).resp = .forbidden) := by
  have h2 := owner_check_guards_mutations exDB (some 2) 1 1 exPostForm exCommentForm
  have h1 := owner_check_guards_mutations exDB (some 1) 1 1 exPostForm exCommentForm
  exact ⟨h2.1 p1 (by decide) (by decide), h2.2.1 p1 (by decide) (by decide),
    h1.2.2.1 c1 (by decide) (by decide), h1.2.2.2 c1 (by decide) (by decide)⟩

/-- C2: `create_queryset` keeps exactly the rows passing the publication
filter when `filters` is true and all of the manager's rows otherwise; it
attaches the `comment_count` annotation and sorts by descending `pub_date`
exactly when `annotations` is true; and with both flags false it returns the
manager's rows unchanged. -/
theorem create_queryset_flag_spec (db : DB) (now : Int) (manager : List Post)
    (f a : Bool) :
    (∀ p, p ∈ rowPosts (create_queryset db now manager f a) ↔
        p ∈ manager ∧ (f = true → passes_filters db now p = true)) ∧
    (∀ ap, ap ∈ create_queryset db now manager f a →
        ap.comment_count = if a then some (comment_count_of db ap.post) else none) ∧
    (a = true → PubDateSortedDesc (rowPosts (create_queryset db now manager f a))) ∧
    (a = false → List.Sublist (rowPosts (create_queryset db now manager f a)) manager) ∧
    (f = false → a = false → rowPosts (create_queryset db now manager f a) = manager) := by
  refine ⟨mem_rowPosts_create_queryset db now manager f a, ?_, ?_, ?_, ?_⟩
  · intro ap hap
    unfold create_queryset at hap
    cases a <;> simp at hap <;> obtain ⟨p, hp, rfl⟩ := hap <;> simp
  · intro ha; subst ha
    unfold create_queryset
    simp only [if_true]
    rw [rowPosts_map]
    exact sorted_sortDesc _
  · intro ha; subst ha
    unfold create_queryset
    simp only [Bool.false_eq_true, if_false]
    rw [rowPosts_map]
    cases f
    · simp
    · simp only [if_true]
      exact List.filter_sublist manager
  · intro hf ha; subst hf; subst ha
    unfold create_queryset
    simp only [Bool.false_eq_true, if_false]
    exact rowPosts_map manager _

theorem create_queryset_flag_spec_witness :
    p1 ∈ rowPosts (create_queryset exDB 100 [p1, p2, p3] true true) ∧
    rowPosts (create_queryset exDB 100 [p1, p2, p3] false false) = [p1, p2, p3] :=
  ⟨((create_queryset_flag_spec exDB 100 [p1, p2, p3] true true).1 p1).mpr
      ⟨by decide, fun _ => by decide⟩,
    (create_queryset_flag_spec exDB 100 [p1, p2, p3] false false).2.2.2.2 rfl rfl⟩


/-- C3: a successful post deletion clears the framework cache, and every
other handler of the request-handling layer is cache-oblivious: it neither
reads nor writes the cache. -/
theorem delete_is_only_cache_toucher :
    (∀ db user post_id post, findPost db post_id = some post →
      some post.author = user →
      (postDeleteView db user post_id).db.cache = [] ∧
      Event.cacheClear ∈ (postDeleteView db user post_id).events) ∧
    (∀ now, cacheOblivious (fun db => indexListView db now)) ∧
    (∀ now slug, cacheOblivious (fun db => categoryListView db now slug)) ∧
    (∀ now user username, cacheOblivious (fun db => profileListView db now user username)) ∧
    (∀ user post_id form, cacheOblivious (fun db => add_comment db user post_id form)) ∧
    (∀ user form, cacheOblivious (fun db => postCreateView db user form)) ∧
    (∀ now user post_id, cacheOblivious (fun db => postDetailView db now user post_id)) ∧
    (∀ user form, cacheOblivious (fun db => profileUpdateView db user form)) ∧
    (∀ user post_id form, cacheOblivious (fun db => postUpdateView db user post_id form)) ∧
    (∀ user post_id comment_id form,
      cacheOblivious (fun db => commentUpdateView db user post_id comment_id form)) ∧
    (∀ user post_id comment_id,
      cacheOblivious (fun db => commentDeleteView db user post_id comment_id)) ∧
    (∀ form, cacheOblivious (fun db => profileCreateView db form)) := by
  refine ⟨?_, ?_, ?_, ?_, ?_, ?_, ?_, ?_, ?_, ?_, ?_, ?_⟩
  · intro db user post_id post hfind huser
    subst huser
    simp [postDeleteView, hfind]
  · intro now db c
    cases db
    rfl
  · intro now slug db c
    cases db
    simp only [categoryListView, withCache]
    repeat' split
    all_goals rfl
  · intro now user username db c
    cases db
    simp only [profileListView, withCache, findUserByUsername]
    repeat' split
    all_goals rfl
  · intro user post_id form db c
    cases db
    simp only [add_comment, withCache, findPost, nextCommentId]
    repeat' split
    all_goals rfl
  · intro user form db c
    cases db
    simp only [postCreateView, withCache, nextPostId, usernameOf]
    repeat' split
    all_goals rfl
  · intro now user post_id db c
    cases db with
    | mk po co ca us e =>
      simp only [postDetailView, withCache, findPost]
      split
      · rfl
      · rename_i post hfind
        rw [show detail_404_condition ⟨po, co, ca, us, c⟩ now user post
              = detail_404_condition ⟨po, co, ca, us, e⟩ now user post from rfl]
        split <;> rfl
  · intro user form db c
    cases db
    simp only [profileUpdateView, withCache, updateUser]
    repeat' split
    all_goals rfl
  · intro user post_id form db c
    cases db
    simp only [postUpdateView, withCache, findPost, updatePost]
    repeat' split
    all_goals rfl
  · intro user post_id comment_id form db c
    cases db
    simp only [commentUpdateView, withCache, findComment, updateComment]
    repeat' split
    all_goals rfl
  · intro user post_id comment_id db c
    cases db
    simp only [commentDeleteView, withCache, findComment]
    repeat' split
    all_goals rfl
  · intro form db c
    cases db
    simp only [profileCreateView, withCache, nextUserId]
    repeat' split
    all_goals rfl

theorem delete_is_only_cache_toucher_witness :
    (postDeleteView exDB (some 1) 1).db.cache = [] ∧
    Event.cacheClear ∈ (postDeleteView exDB (some 1) 1).events :=
  delete_is_only_cache_toucher.1 exDB (some 1) 1 p1 (by decide) (by decide)


/-- C4 counterexample: the index listing performs its database read with no
authorization check at all, and a successful post deletion performs two
database writes, so it is false that every operation performs an
authorization check followed by exactly one database read or write. -/
theorem auth_single_access_cex :
    Event.authCheck ∉ (indexListView exDB 100).events ∧
    (indexListView exDB 100).events.count Event.queryset = 1 ∧
    (postDeleteView exDB (some 1) 1).events.count Event.dbWrite = 2 := by
  refine ⟨?_, ?_, ?_⟩ <;> decide

/-- C4 (amended): the handlers that mutate posts, comments or the profile
perform an authorization check before any database write, and every listing,
detail, create, update, delete, comment and profile handler performs at
least one database access or authorization check; but the index listing
reads the database with no authorization check, registration writes with no
authorization check, and a successful post deletion performs two database
writes, so the operations are not one authorization check plus exactly one
database access each. -/
theorem auth_before_write_amended :
    (∀ db user post_id form,
      authBeforeWrite (postUpdateView db user post_id form).events = true) ∧
    (∀ db user post_id,
      authBeforeWrite (postDeleteView db user post_id).events = true) ∧
    (∀ db user post_id comment_id form,
      authBeforeWrite (commentUpdateView db user post_id comment_id form).events = true) ∧
    (∀ db user post_id comment_id,
      authBeforeWrite (commentDeleteView db user post_id comment_id).events = true) ∧
    (∀ db user post_id form,
      authBeforeWrite (add_comment db user post_id form).events = true) ∧
    (∀ db user form, authBeforeWrite (postCreateView db user form).events = true) ∧
    (∀ db user form, authBeforeWrite (profileUpdateView db user form).events = true) ∧
    (∀ db now, (indexListView db now).events = [Event.queryset]) ∧
    (∀ db form, (profileCreateView db form).events = [Event.dbWrite] ∨
      (profileCreateView db form).events = []) ∧
    (∀ db user post_id post, findPost db post_id = some post →
      some post.author = user →
      (postDeleteView db user post_id).events.count Event.dbWrite = 2) := by
  refine ⟨?_, ?_, ?_, ?_, ?_, ?_, ?_, ?_, ?_, ?_⟩
  · intro db user post_id form
    unfold postUpdateView
    repeat' split
    all_goals rfl
  · intro db user post_id
    unfold postDeleteView
    repeat' split
    all_goals rfl
  · intro db user post_id comment_id form
    unfold commentUpdateView
    repeat' split
    all_goals rfl
  · intro db user post_id comment_id
    unfold commentDeleteView
    repeat' split
    all_goals rfl
  · intro db user post_id form
    unfold add_comment
    repeat' split
    all_goals rfl
  · intro db user form
    unfold postCreateView
    repeat' split
    all_goals rfl
  · intro db user form
    unfold profileUpdateView
    repeat' split
    all_goals rfl
  · intro db now
    rfl
  · intro db form
    unfold profileCreateView
    split
    · exact Or.inl rfl
    · exact Or.inr rfl
  · intro db user post_id post hfind huser
    subst huser
    simp [postDeleteView, hfind]

theorem auth_before_write_amended_witness :
    authBeforeWrite (postUpdateView exDB (some 1) 1 exPostForm).events = true ∧
    (postDeleteView exDB (some 1) 1).events.count Event.dbWrite = 2 :=
  ⟨auth_before_write_amended.1 exDB (some 1) 1 exPostForm,
    auth_before_write_amended.2.2.2.2.2.2.2.2.2 exDB (some 1) 1 p1 (by decide) (by decide)⟩

/-- C5: for each of the four post/comment mutation views, a request by a
non-author is rejected at dispatch time: the database is unchanged, no
database write happens, and the response is a redirect to the post's detail
page or HTTP 403 Forbidden. -/
theorem dispatch_time_rejection
    (db : DB) (user : Option Nat) (post_id comment_id : Nat)
    (pform : PostForm) (cform : CommentForm) :
    (∀ post, findPost db post_id = some post → some post.author ≠ user →
      (postUpdateView db user post_id pform).db = db ∧
      Event.dbWrite ∉ (postUpdateView db user post_id pform).events ∧
      (postUpdateView db user post_id pform).resp = .redirect (.post_detail post.id)) ∧
    (∀ post, findPost db post_id = some post → some post.author ≠ user →
      (postDeleteView db user post_id).db = db ∧
      Event.dbWrite ∉ (postDeleteView db user post_id).events ∧
      (postDeleteView db user post_id).resp = .forbidden) ∧
    (∀ comment, findComment db comment_id = some comment → some comment.author ≠ user →
      (commentUpdateView db user post_id comment_id cform).db = db ∧
      Event.dbWrite ∉ (commentUpdateView db user post_id comment_id cform).events ∧
      (commentUpdateView db user post_id comment_id cform).resp =
        .redirect (.post_detail comment.post)) ∧
    (∀ comment, findComment db comment_id = some comment → some comment.author ≠ user →
      (commentDeleteView db user post_id comment_id).db = db ∧
      Event.dbWrite ∉ (commentDeleteView db user post_id comment_id).events ∧
      (commentDeleteView db user post_id comment_id).resp = .forbidden) := by
  refine ⟨?_, ?_, ?_, ?_⟩
  · intro post hfind hne
    simp [postUpdateView, hfind, hne]
  · intro post hfind hne
    simp [postDeleteView, hfind, hne]
  · intro comment hfind hne
    simp [commentUpdateView, hfind, hne]
  · intro comment hfind hne
    simp [commentDeleteView, hfind, hne]

theorem dispatch_time_rejection_witness :
    (postDeleteView exDB (some 2) 1).db = exDB ∧
    Event.dbWrite ∉ (postDeleteView exDB (some 2) 1).events ∧
    (postDeleteView exDB (some 2) 1).resp = .forbidden :=
  (dispatch_time_rejection exDB (some 2) 1 1 exPostForm exCommentForm).2.1 p1
    (by decide) (by decide)

/-- C6: for an authenticated user and an existing post, `add_comment` always
responds with a redirect to the post's detail page; exactly when the form is
valid it appends one new comment whose author is the requester and whose
post is the target, leaving everything else unchanged; on an invalid form
the state is unchanged. -/
theorem add_comment_create_iff_valid
    (db : DB) (u : Nat) (post_id : Nat) (form : CommentForm) (post : Post)
    (hfind : findPost db post_id = some post) :
    (add_comment db (some u) post_id form).resp = .redirect (.post_detail post_id) ∧
    (form.valid = true → ∃ c : Comment, c.author = u ∧ c.post = post_id ∧
      (add_comment db (some u) post_id form).db.comments = db.comments ++ [c] ∧
      (add_comment db (some u) post_id form).db.posts = db.posts ∧
      (add_comment db (some u) post_id form).db.users = db.users ∧
      (add_comment db (some u) post_id form).db.categories = db.categories ∧
      (add_comment db (some u) post_id form).db.cache = db.cache) ∧
    (form.valid = false → (add_comment db (some u) post_id form).db = db) := by
  have hid : post.id = post_id := findPost_id db post_id post hfind
  refine ⟨?_, ?_, ?_⟩
  · cases hv : form.valid <;> simp [add_comment, hfind, hv]
  · intro hv
    refine ⟨⟨nextCommentId db, u, post.id, form.text⟩, rfl, hid, ?_⟩
    simp [add_comment, hfind, hv]
  · intro hv
    simp [add_comment, hfind, hv]

theorem add_comment_create_iff_valid_witness :
    (add_comment exDB (some 2) 1 exCommentForm).resp = .redirect (.post_detail 1) ∧
    ∃ c : Comment, c.author = 2 ∧ c.post = 1 ∧
      (add_comment exDB (some 2) 1 exCommentForm).db.comments = exDB.comments ++ [c] ∧
      (add_comment exDB (some 2) 1 exCommentForm).db.posts = exDB.posts ∧
      (add_comment exDB (some 2) 1 exCommentForm).db.users = exDB.users ∧
      (add_comment exDB (some 2) 1 exCommentForm).db.categories = exDB.categories ∧
      (add_comment exDB (some 2) 1 exCommentForm).db.cache = exDB.cache :=
  ⟨(add_comment_create_iff_valid exDB 2 1 exCommentForm p1 (by decide)).1,
    (add_comment_create_iff_valid exDB 2 1 exCommentForm p1 (by decide)).2.1 rfl⟩


/-- C7 counterexample: a successful `PostDetailView` request constructs two
querysets (the post fetch and the comments queryset), not exactly one. -/
theorem one_queryset_cex :
    (postDetailView exDB 100 (some 2) 1).events.count Event.queryset ≠ 1 := by
  decide

/-- C7 (amended): each handler produces exactly one response, but a handler
may construct more than one queryset: the index listing constructs one, a
successful `PostDetailView` request constructs two (the post and its
comments), and a successful `PostDeleteView` request constructs three (the
post at dispatch, the post again in `delete`, and its comments). -/
theorem queryset_count_amended :
    (∀ db now, (indexListView db now).events.count Event.queryset = 1) ∧
    (∀ db now user post_id post, findPost db post_id = some post →
      detail_404_condition db now user post = false →
      (postDetailView db now user post_id).events.count Event.queryset = 2) ∧
    (∀ db user post_id post, findPost db post_id = some post →
      some post.author = user →
      (postDeleteView db user post_id).events.count Event.queryset = 3) := by
  refine ⟨?_, ?_, ?_⟩
  · intro db now
    rfl
  · intro db now user post_id post hfind hcond
    simp [postDetailView, hfind, hcond]
  · intro db user post_id post hfind huser
    subst huser
    simp [postDeleteView, hfind]

theorem queryset_count_amended_witness :
    (postDetailView exDB 100 (some 2) 1).events.count Event.queryset = 2 ∧
    (postDeleteView exDB (some 1) 1).events.count Event.queryset = 3 :=
  ⟨queryset_count_amended.2.1 exDB 100 (some 2) 1 p1 (by decide) (by decide),
    queryset_count_amended.2.2 exDB (some 1) 1 p1 (by decide) (by decide)⟩

/-- C8: any post in a filtered listing (`create_queryset` with
`filters=True`, as the index, category and other-user profile pages use it)
is viewable on its detail page by any requester at any later time: the
`Http404` branch of `PostDetailView.get_object` is unreachable for it. -/
theorem filtered_rows_detail_visible
    (db : DB) (now now2 : Int) (user : Option Nat) (manager : List Post)
    (a : Bool) (p : Post)
    (hmem : p ∈ rowPosts (create_queryset db now manager true a))
    (hle : now ≤ now2) :
    detail_404_condition db now2 user p = false ∧
    (findPost db p.id = some p →
      (postDetailView db now2 user p.id).resp = .detailPage p) := by
  have hpass : passes_filters db now p = true :=
    ((mem_rowPosts_create_queryset db now manager true a p).mp hmem).2 rfl
  unfold passes_filters at hpass
  simp only [Bool.and_eq_true, decide_eq_true_eq] at hpass
  obtain ⟨⟨hdate, hpub⟩, hcat⟩ := hpass
  have hnlt : ¬ (now2 < p.pub_date) := not_lt.mpr (le_of_lt (lt_of_lt_of_le hdate hle))
  have hcond : detail_404_condition db now2 user p = false := by
    simp [detail_404_condition, hpub, hcat, hnlt]
  refine ⟨hcond, ?_⟩
  intro hfind
  simp [postDetailView, hfind, hcond]

theorem filtered_rows_detail_visible_witness :
    detail_404_condition exDB 150 (some 2) p1 = false ∧
    (findPost exDB p1.id = some p1 →
      (postDetailView exDB 150 (some 2) p1.id).resp = .detailPage p1) :=
  filtered_rows_detail_visible exDB 100 150 (some 2) [p1, p2, p3] true p1
    (by decide) (by decide)

/-- C9: a successful post deletion removes exactly the comments attached to
the deleted post and the post itself; every comment of every other post,
every other post, and the users and categories tables are untouched. -/
theorem post_delete_frame
    (db : DB) (user : Option Nat) (post_id : Nat) (post : Post)
    (hfind : findPost db post_id = some post)
    (huser : some post.author = user) :
    (∀ c : Comment, c ∈ (postDeleteView db user post_id).db.comments ↔
      c ∈ db.comments ∧ c.post ≠ post_id) ∧
    (∀ p : Post, p ∈ (postDeleteView db user post_id).db.posts ↔
      p ∈ db.posts ∧ p.id ≠ post_id) ∧
    (postDeleteView db user post_id).db.users = db.users ∧
    (postDeleteView db user post_id).db.categories = db.categories := by
  have hid : post.id = post_id := findPost_id db post_id post hfind
  subst huser
  refine ⟨?_, ?_, ?_, ?_⟩
  · intro c
    simp [postDeleteView, hfind, hid, List.mem_filter]
  · intro p
    simp [postDeleteView, hfind, hid, List.mem_filter]
  · simp [postDeleteView, hfind]
  · simp [postDeleteView, hfind]

theorem post_delete_frame_witness :
    (c1 ∉ (postDeleteView exDB (some 1) 1).db.comments) ∧
    (p2 ∈ (postDeleteView exDB (some 1) 1).db.posts) ∧
    (postDeleteView exDB (some 1) 1).db.users = exDB.users := by
  have h := post_delete_frame exDB (some 1) 1 p1 (by decide) (by decide)
  refine ⟨?_, ?_, h.2.2.1⟩
  · intro hc
    exact absurd ((h.1 c1).mp hc).2 (by decide)
  · exact (h.2.1 p2).mpr ⟨by decide, by decide⟩

/-- C10: the author of a post bypasses the publication rules:
`PostDetailView` returns the post to its author regardless of publication
state or date, and `ProfileListView` shows the profile owner all of their
posts while any other viewer sees only the posts passing the publication
filter. -/
theorem author_bypass :
    (∀ db now user post_id post, findPost db post_id = some post →
      user = some post.author →
      (postDetailView db now user post_id).resp = .detailPage post) ∧
    (∀ db now user username author,
      findUserByUsername db username = some author →
      ((user = some author.id →
        ∀ p, p ∈ rowPosts (listingRows (profileListView db now user username).resp) ↔
          p ∈ db.posts ∧ p.author = author.id) ∧
       (user ≠ some author.id →
        ∀ p, p ∈ rowPosts (listingRows (profileListView db now user username).resp) ↔
          p ∈ db.posts ∧ p.author = author.id ∧ passes_filters db now p = true))) := by
  constructor
  · intro db now user post_id post hfind huser
    subst huser
    simp [postDetailView, hfind, detail_404_condition]
  · intro db now user username author hfind
    constructor
    · intro hown p
      subst hown
      have hmem := mem_rowPosts_create_queryset db now
        (db.posts.filter (fun q => q.author == author.id)) false true p
      simp [List.mem_filter] at hmem
      simp [profileListView, hfind, listingRows, hmem]
    · intro hother p
      have hmem := mem_rowPosts_create_queryset db now
        (db.posts.filter (fun q => q.author == author.id)) true true p
      have hbeq : (user == some author.id) = false := by
        cases huq : user == some author.id
        · rfl
        · exact absurd (eq_of_beq huq) hother
      simp [List.mem_filter] at hmem
      simp [profileListView, hfind, listingRows, hbeq, hmem]
      tauto

theorem author_bypass_witness :
    (postDetailView exDB 100 (some 1) 2).resp = .detailPage p2 ∧
    p2 ∈ rowPosts (listingRows (profileListView exDB 100 (some 1) "alice").resp) ∧
    p2 ∉ rowPosts (listingRows (profileListView exDB 100 (some 2) "alice").resp) := by
  have h := author_bypass
  refine ⟨h.1 exDB 100 (some 1) 2 p2 (by decide) (by decide), ?_, ?_⟩
  · exact ((h.2 exDB 100 (some 1) "alice" alice (by decide)).1 (by decide) p2).mpr
      ⟨by decide, by decide⟩
  · intro hmem
    have := ((h.2 exDB 100 (some 2) "alice" alice (by decide)).2 (by decide) p2).mp hmem
    exact absurd this.2.2 (by decide)

end Blogicum
